import Mathlib

/-!
Verification of the resilience and lifecycle core of browser-tools-go.

This file gives a shallow embedding of the retry executor
(internal/utils/retry.go), the session lifecycle (internal/browser/
lifecycle_unix.go), the readiness waiter (internal/browser/wait.go),
the selector-fallback extraction (internal/logic, enhanced scraping
variant) and content truncation, and proves or refutes the frozen
behavioural claims about them.

Modelling conventions:
- Go errors are modelled by the inductive `GoErr`; `fmt.Errorf` with a
  `%w` verb is `GoErr.wrapped`, rendering as "context: inner" just as
  the Go error chain prints.
- `time.Duration` values are modelled as rationals (`Rat`).  The Go
  code multiplies a duration by a `float64` multiplier and converts
  back; the conversion drops sub-nanosecond fractions, a rounding this
  embedding does not reproduce (multiplication is exact over `Rat`).
- A fallible operation handed to the retry executor is a function
  `Nat → Option GoErr` giving the outcome of its n-th invocation
  (`none` = success).
- A `context.Context` is modelled by `Nat → Bool`: doneness of the
  context at its n-th observation point inside the function at hand.
-/

/-- Go error values: either a leaf message (`errors.New` or
`fmt.Errorf` without `%w`) or a wrapping error built by `fmt.Errorf`
with a trailing `: %w`. -/
inductive GoErr where
  | msg (s : String)
  | wrapped (context : String) (inner : GoErr)
deriving DecidableEq, Repr

/-- The `Error()` method: a wrapped error prints as "context: inner". -/
def GoErr.Error : GoErr → String
  | .msg s => s
  | .wrapped c e => c ++ ": " ++ GoErr.Error e

/-- RetryConfig from internal/utils/retry.go.  `MaxAttempts` is a Go
`int`, hence `Int`.  Durations are in milliseconds.  The `OnRetry`
logging callback is omitted: it only writes to the log. -/
structure RetryConfig where
  MaxAttempts : Int
  InitialBackoff : Rat
  MaxBackoff : Rat
  BackoffMultiplier : Rat
  IsRetryable : Option GoErr → Bool

/-- The loop body of `calculateBackoff`: `for i := 0; i < attempt; i++
\x7b backoff = backoff * multiplier; if backoff > max \x7b backoff = max;
break \x7d \x7d`. -/
def backoffAux (multiplier maxBackoff : Rat) : Nat → Rat → Rat
  | 0, b => b
  | n + 1, b =>
    let b2 := b * multiplier
    if maxBackoff < b2 then maxBackoff else backoffAux multiplier maxBackoff n b2

/-- `calculateBackoff` from internal/utils/retry.go. -/
def calculateBackoff (attempt : Nat) (config : RetryConfig) : Rat :=
  backoffAux config.BackoffMultiplier config.MaxBackoff attempt config.InitialBackoff

/-- A decidable check that `keyword` occurs as a contiguous substring
at the head of the text, mirroring the prefix test underlying Go
`strings.Contains`. -/
def headMatches : List Char → List Char → Bool
  | [], _ => true
  | _ :: _, [] => false
  | a :: as, b :: bs => a == b && headMatches as bs

/-- Go `strings.Contains`: the needle occurs contiguously somewhere in
the haystack. -/
def containsSub (needle : List Char) : List Char → Bool
  | [] => needle.isEmpty
  | c :: rest => headMatches needle (c :: rest) || containsSub needle rest

/-- Go `strings.ToLower` restricted to the ASCII case mapping (the
keyword lists below are pure ASCII). -/
def lowerChars (s : String) : List Char := s.toList.map Char.toLower

/-- One keyword test of `DefaultIsRetryable`:
`strings.Contains(strings.ToLower(errMsg), keyword)`. -/
def hasKeyword (errMsg : String) (kw : String) : Bool :=
  containsSub kw.toList (lowerChars errMsg)

/-- The non-retryable keyword list of `DefaultIsRetryable`. -/
def nonRetryableKeywords : List String :=
  ["context canceled", "context deadline exceeded", "invalid argument",
   "not found", "forbidden", "unauthorized"]

/-- The retryable keyword list of `DefaultIsRetryable`. -/
def retryableKeywords : List String :=
  ["timeout", "connection refused", "no such host", "network",
   "temporary", "busy", "overloaded"]

/-- `DefaultIsRetryable` from internal/utils/retry.go: nil errors are
not retryable; any non-retryable keyword in the lower-cased message
forces false; otherwise any retryable keyword yields true; the default
is false. -/
def DefaultIsRetryable : Option GoErr → Bool
  | none => false
  | some err =>
    let errMsg := err.Error
    if nonRetryableKeywords.any (fun kw => hasKeyword errMsg kw) then false
    else if retryableKeywords.any (fun kw => hasKeyword errMsg kw) then true
    else false

/-- `DefaultRetryConfig` from internal/utils/retry.go (durations in
milliseconds). -/
def DefaultRetryConfig : RetryConfig :=
  { MaxAttempts := 3, InitialBackoff := 100, MaxBackoff := 2000,
    BackoffMultiplier := 2, IsRetryable := DefaultIsRetryable }

/-- Everything `Retry` lets the caller observe: how often the operation
ran, the backoff durations it slept, and the returned error (`none` =
nil). -/
structure RetryOutcome where
  invocations : Nat
  sleeps : List Rat
  result : Option GoErr
deriving Repr

/-- The `for attempt := 0; ; attempt++` loop of `Retry`
(internal/utils/retry.go).  The Go loop breaks when
`attempt >= config.MaxAttempts-1`; here `remaining` carries
`(config.MaxAttempts - 1 - attempt).toNat`, which is zero exactly when
that break condition holds, making the recursion structural.  The exit
paths mirror the source in order: success, non-retryable error
returned unmodified, attempts exhausted (wrapping the last error and
naming `config.MaxAttempts`), cancellation observed before the
backoff, cancellation observed during the backoff sleep. -/
def RetryLoop (fn : Nat → Option GoErr) (config : RetryConfig) (ctx : Nat → Bool) :
    Nat → Nat → Nat → List Rat → RetryOutcome
  | remaining, attempt, obs, sleeps =>
    match fn attempt with
    | none => { invocations := attempt + 1, sleeps := sleeps.reverse, result := none }
    | some e =>
      if config.IsRetryable (some e) = false then
        { invocations := attempt + 1, sleeps := sleeps.reverse, result := some e }
      else
        match remaining with
        | 0 =>
          { invocations := attempt + 1, sleeps := sleeps.reverse,
            result := some (GoErr.wrapped
              ("retry failed after " ++ toString config.MaxAttempts ++ " attempts") e) }
        | r + 1 =>
          if ctx obs then
            { invocations := attempt + 1, sleeps := sleeps.reverse,
              result := some (GoErr.wrapped "retry canceled" (GoErr.msg "context canceled")) }
          else
            let backoff := calculateBackoff attempt config
            if ctx (obs + 1) then
              { invocations := attempt + 1, sleeps := sleeps.reverse,
                result := some (GoErr.wrapped "retry canceled during backoff"
                  (GoErr.msg "context canceled")) }
            else
              RetryLoop fn config ctx r (attempt + 1) (obs + 2) (backoff :: sleeps)

/-- `Retry` from internal/utils/retry.go, with an explicit (non-nil)
config.  The loop starts at attempt 0 with
`remaining = (MaxAttempts - 1).toNat`. -/
def Retry (fn : Nat → Option GoErr) (config : RetryConfig) (ctx : Nat → Bool) : RetryOutcome :=
  RetryLoop fn config ctx (config.MaxAttempts - 1).toNat 0 0 []

/-- A context that is never cancelled (`context.Background()`). -/
def ctxNever : Nat → Bool := fun _ => false

/-! ### Step equations for the retry loop -/

/-- If the current invocation succeeds, the loop returns nil at once. -/
theorem RetryLoop_eq_success (fn : Nat → Option GoErr) (cfg : RetryConfig) (ctx : Nat → Bool)
    (remaining attempt obs : Nat) (sleeps : List Rat) (hfn : fn attempt = none) :
    RetryLoop fn cfg ctx remaining attempt obs sleeps
      = { invocations := attempt + 1, sleeps := sleeps.reverse, result := none } := by
  unfold RetryLoop
  simp [hfn]

/-- If the current invocation fails non-retryably, the loop returns the
error unmodified at once. -/
theorem RetryLoop_eq_nonretry (fn : Nat → Option GoErr) (cfg : RetryConfig) (ctx : Nat → Bool)
    (remaining attempt obs : Nat) (sleeps : List Rat) (e : GoErr)
    (hfn : fn attempt = some e) (hr : cfg.IsRetryable (some e) = false) :
    RetryLoop fn cfg ctx remaining attempt obs sleeps
      = { invocations := attempt + 1, sleeps := sleeps.reverse, result := some e } := by
  unfold RetryLoop
  simp [hfn, hr]

/-- If the current invocation fails retryably with the attempt budget
spent, the loop returns the exhaustion error wrapping the last error. -/
theorem RetryLoop_eq_exhaust (fn : Nat → Option GoErr) (cfg : RetryConfig) (ctx : Nat → Bool)
    (attempt obs : Nat) (sleeps : List Rat) (e : GoErr)
    (hfn : fn attempt = some e) (hr : cfg.IsRetryable (some e) = true) :
    RetryLoop fn cfg ctx 0 attempt obs sleeps
      = { invocations := attempt + 1, sleeps := sleeps.reverse,
          result := some (GoErr.wrapped
            ("retry failed after " ++ toString cfg.MaxAttempts ++ " attempts") e) } := by
  unfold RetryLoop
  simp [hfn, hr]

/-- Cancellation observed before the backoff sleep. -/
theorem RetryLoop_eq_cancel (fn : Nat → Option GoErr) (cfg : RetryConfig) (ctx : Nat → Bool)
    (r attempt obs : Nat) (sleeps : List Rat) (e : GoErr)
    (hfn : fn attempt = some e) (hr : cfg.IsRetryable (some e) = true)
    (h1 : ctx obs = true) :
    RetryLoop fn cfg ctx (r + 1) attempt obs sleeps
      = { invocations := attempt + 1, sleeps := sleeps.reverse,
          result := some (GoErr.wrapped "retry canceled" (GoErr.msg "context canceled")) } := by
  unfold RetryLoop
  simp [hfn, hr, h1]

/-- Cancellation observed during the backoff sleep. -/
theorem RetryLoop_eq_cancelBackoff (fn : Nat → Option GoErr) (cfg : RetryConfig)
    (ctx : Nat → Bool) (r attempt obs : Nat) (sleeps : List Rat) (e : GoErr)
    (hfn : fn attempt = some e) (hr : cfg.IsRetryable (some e) = true)
    (h1 : ctx obs = false) (h2 : ctx (obs + 1) = true) :
    RetryLoop fn cfg ctx (r + 1) attempt obs sleeps
      = { invocations := attempt + 1, sleeps := sleeps.reverse,
          result := some (GoErr.wrapped "retry canceled during backoff"
            (GoErr.msg "context canceled")) } := by
  unfold RetryLoop
  simp [hfn, hr, h1, h2]

/-- A retryable failure with budget and no cancellation: sleep the
computed backoff and move to the next attempt. -/
theorem RetryLoop_eq_continue (fn : Nat → Option GoErr) (cfg : RetryConfig) (ctx : Nat → Bool)
    (r attempt obs : Nat) (sleeps : List Rat) (e : GoErr)
    (hfn : fn attempt = some e) (hr : cfg.IsRetryable (some e) = true)
    (h1 : ctx obs = false) (h2 : ctx (obs + 1) = false) :
    RetryLoop fn cfg ctx (r + 1) attempt obs sleeps
      = RetryLoop fn cfg ctx r (attempt + 1) (obs + 2)
          (calculateBackoff attempt cfg :: sleeps) := by
  conv_lhs => unfold RetryLoop
  simp [hfn, hr, h1, h2]

/-! ### C1 - C3: the retry executor -/

/-- Loop invariant for success: `k` retryable failures followed by a
success reach the successful attempt without exhausting the budget. -/
theorem RetryLoop_success_run (fn : Nat → Option GoErr) (cfg : RetryConfig) :
    ∀ (k remaining attempt obs : Nat) (sleeps : List Rat),
      k ≤ remaining →
      (∀ i, i < k → ((fn (attempt + i)).any fun e => cfg.IsRetryable (some e)) = true) →
      fn (attempt + k) = none →
      (RetryLoop fn cfg ctxNever remaining attempt obs sleeps).result = none ∧
      (RetryLoop fn cfg ctxNever remaining attempt obs sleeps).invocations = attempt + k + 1 := by
  intro k
  induction k with
  | zero =>
    intro remaining attempt obs sleeps _ _ hsucc
    rw [Nat.add_zero] at hsucc
    rw [RetryLoop_eq_success fn cfg ctxNever remaining attempt obs sleeps hsucc]
    exact ⟨rfl, rfl⟩
  | succ k ih =>
    intro remaining attempt obs sleeps hk hfail hsucc
    have h0 := hfail 0 (Nat.succ_pos k)
    rw [Nat.add_zero] at h0
    cases hfn : fn attempt with
    | none => rw [hfn] at h0; simp [Option.any] at h0
    | some e =>
      rw [hfn] at h0
      simp only [Option.any] at h0
      cases remaining with
      | zero => omega
      | succ r =>
        rw [RetryLoop_eq_continue fn cfg ctxNever r attempt obs sleeps e hfn h0 rfl rfl]
        have hrec := ih r (attempt + 1) (obs + 2) (calculateBackoff attempt cfg :: sleeps)
          (by omega)
          (fun i hi => by
            have h := hfail (i + 1) (by omega)
            rwa [show attempt + (i + 1) = attempt + 1 + i by omega] at h)
          (by rwa [show attempt + 1 + k = attempt + (k + 1) by omega])
        exact ⟨hrec.1, by rw [hrec.2]; omega⟩

/-- C1: for every retry policy with `maxAttempts = M ≥ 1` and every `N`
with `1 ≤ N ≤ M`, if the operation fails with a retryable error on each
of its first `N-1` invocations and succeeds on the `N`-th, then `Retry`
returns nil and the operation is invoked exactly `N` times. -/
theorem retry_success_after_n (fn : Nat → Option GoErr) (cfg : RetryConfig) (N : Nat)
    (hM : 1 ≤ cfg.MaxAttempts) (hN : 1 ≤ N) (hNM : (N : Int) ≤ cfg.MaxAttempts)
    (hfail : ∀ i, i < N - 1 → ((fn i).any fun e => cfg.IsRetryable (some e)) = true)
    (hsucc : fn (N - 1) = none) :
    (Retry fn cfg ctxNever).result = none ∧
    (Retry fn cfg ctxNever).invocations = N := by
  have h := RetryLoop_success_run fn cfg (N - 1) (cfg.MaxAttempts - 1).toNat 0 0 []
    (by omega)
    (fun i hi => by simpa using hfail i hi)
    (by simpa using hsucc)
  unfold Retry
  exact ⟨h.1, by rw [h.2]; omega⟩

/-- Witness for C1: a policy with three attempts, an operation failing
retryably twice and succeeding on the third invocation. -/
theorem retry_success_after_n_witness :
    (Retry (fun i => if i < 2 then some (GoErr.msg "timeout") else none)
      { MaxAttempts := 3, InitialBackoff := 1, MaxBackoff := 10,
        BackoffMultiplier := 2, IsRetryable := fun _ => true } ctxNever).result = none ∧
    (Retry (fun i => if i < 2 then some (GoErr.msg "timeout") else none)
      { MaxAttempts := 3, InitialBackoff := 1, MaxBackoff := 10,
        BackoffMultiplier := 2, IsRetryable := fun _ => true } ctxNever).invocations = 3 :=
  retry_success_after_n _ _ 3 (by decide) (by decide) (by decide)
    (by decide) (by decide)

/-- Loop invariant for exhaustion: when every invocation fails
retryably, the loop spends its whole budget and wraps the error of the
final attempt. -/
theorem RetryLoop_exhaust_run (fn : Nat → Option GoErr) (cfg : RetryConfig)
    (hall : ∀ i, ((fn i).any fun e => cfg.IsRetryable (some e)) = true) :
    ∀ (remaining attempt obs : Nat) (sleeps : List Rat),
      ∃ e, fn (attempt + remaining) = some e ∧
        (RetryLoop fn cfg ctxNever remaining attempt obs sleeps).result =
          some (GoErr.wrapped
            ("retry failed after " ++ toString cfg.MaxAttempts ++ " attempts") e) ∧
        (RetryLoop fn cfg ctxNever remaining attempt obs sleeps).invocations
          = attempt + remaining + 1 := by
  intro remaining
  induction remaining with
  | zero =>
    intro attempt obs sleeps
    have h0 := hall attempt
    cases hfn : fn attempt with
    | none => rw [hfn] at h0; simp [Option.any] at h0
    | some e =>
      rw [hfn] at h0
      simp only [Option.any] at h0
      refine ⟨e, by simpa using hfn, ?_, ?_⟩ <;>
        rw [RetryLoop_eq_exhaust fn cfg ctxNever attempt obs sleeps e hfn h0]
  | succ r ih =>
    intro attempt obs sleeps
    have h0 := hall attempt
    cases hfn : fn attempt with
    | none => rw [hfn] at h0; simp [Option.any] at h0
    | some e =>
      rw [hfn] at h0
      simp only [Option.any] at h0
      obtain ⟨e2, he2, hres, hinv⟩ := ih (attempt + 1) (obs + 2)
        (calculateBackoff attempt cfg :: sleeps)
      refine ⟨e2, by rwa [show attempt + (r + 1) = attempt + 1 + r by omega], ?_, ?_⟩ <;>
        rw [RetryLoop_eq_continue fn cfg ctxNever r attempt obs sleeps e hfn h0 rfl rfl]
      · exact hres
      · rw [hinv]; omega

/-- C2: for every retry policy with `maxAttempts = K ≥ 1`, if the
operation fails with a retryable error on every invocation, then `Retry`
invokes the operation exactly `K` times and returns an exhaustion error
that wraps the last underlying error and names the attempt count `K`. -/
theorem retry_exhausts_all_attempts (fn : Nat → Option GoErr) (cfg : RetryConfig) (K : Nat)
    (hK : cfg.MaxAttempts = (K : Int)) (hK1 : 1 ≤ K)
    (hall : ∀ i, ((fn i).any fun e => cfg.IsRetryable (some e)) = true) :
    ∃ e, fn (K - 1) = some e ∧
      (Retry fn cfg ctxNever).invocations = K ∧
      (Retry fn cfg ctxNever).result =
        some (GoErr.wrapped ("retry failed after " ++ toString (K : Int) ++ " attempts") e) := by
  have hrem : (cfg.MaxAttempts - 1).toNat = K - 1 := by omega
  obtain ⟨e, he, hres, hinv⟩ :=
    RetryLoop_exhaust_run fn cfg hall (cfg.MaxAttempts - 1).toNat 0 0 []
  rw [hrem] at he hres hinv
  refine ⟨e, by simpa using he, ?_, ?_⟩
  · rw [Retry, hrem] at *; rw [hinv]; omega
  · rw [Retry, hrem] at *; rw [hres, hK]

/-- Witness for C2: a two-attempt policy and an operation that always
fails retryably; both attempts are consumed and the exhaustion error
wraps the last failure. -/
theorem retry_exhausts_all_attempts_witness :
    ∃ e, (fun _ : Nat => some (GoErr.msg "timeout")) (2 - 1) = some e ∧
      (Retry (fun _ => some (GoErr.msg "timeout"))
        { MaxAttempts := 2, InitialBackoff := 1, MaxBackoff := 10,
          BackoffMultiplier := 2, IsRetryable := fun _ => true } ctxNever).invocations = 2 ∧
      (Retry (fun _ => some (GoErr.msg "timeout"))
        { MaxAttempts := 2, InitialBackoff := 1, MaxBackoff := 10,
          BackoffMultiplier := 2, IsRetryable := fun _ => true } ctxNever).result =
        some (GoErr.wrapped ("retry failed after " ++ toString ((2 : Nat) : Int) ++ " attempts")
          e) :=
  retry_exhausts_all_attempts (fun _ => some (GoErr.msg "timeout"))
    { MaxAttempts := 2, InitialBackoff := 1, MaxBackoff := 10,
      BackoffMultiplier := 2, IsRetryable := fun _ => true } 2 rfl (by decide) (fun _ => rfl)

/-- C3: for every operation whose every failure is non-retryable under
the policy, `Retry` invokes the operation exactly once, returns the
error value unmodified (not wrapped), and performs no backoff sleep. -/
theorem retry_nonretryable_once (fn : Nat → Option GoErr) (cfg : RetryConfig) (e0 : GoErr)
    (h0 : fn 0 = some e0)
    (hnr : ∀ i e, fn i = some e → cfg.IsRetryable (some e) = false) :
    (Retry fn cfg ctxNever).invocations = 1 ∧
    (Retry fn cfg ctxNever).result = some e0 ∧
    (Retry fn cfg ctxNever).sleeps = [] := by
  rw [Retry, RetryLoop_eq_nonretry fn cfg ctxNever (cfg.MaxAttempts - 1).toNat 0 0 [] e0 h0
    (hnr 0 e0 h0)]
  exact ⟨rfl, rfl, rfl⟩

/-- Witness for C3: an operation that always fails with an error the
policy classifies as fatal is run once, its error comes back untouched,
and no sleep happens. -/
theorem retry_nonretryable_once_witness :
    (Retry (fun _ => some (GoErr.msg "not found"))
      { MaxAttempts := 3, InitialBackoff := 1, MaxBackoff := 10,
        BackoffMultiplier := 2, IsRetryable := fun _ => false } ctxNever).invocations = 1 ∧
    (Retry (fun _ => some (GoErr.msg "not found"))
      { MaxAttempts := 3, InitialBackoff := 1, MaxBackoff := 10,
        BackoffMultiplier := 2, IsRetryable := fun _ => false } ctxNever).result =
      some (GoErr.msg "not found") ∧
    (Retry (fun _ => some (GoErr.msg "not found"))
      { MaxAttempts := 3, InitialBackoff := 1, MaxBackoff := 10,
        BackoffMultiplier := 2, IsRetryable := fun _ => false } ctxNever).sleeps = [] :=
  retry_nonretryable_once (fun _ => some (GoErr.msg "not found"))
    { MaxAttempts := 3, InitialBackoff := 1, MaxBackoff := 10,
      BackoffMultiplier := 2, IsRetryable := fun _ => false }
    (GoErr.msg "not found") rfl (fun _ _ _ => rfl)

/-! ### C10: the default retryability classifier -/

/-- C10: `DefaultIsRetryable` classifies an error as retryable exactly
when the error is non-nil, its lower-cased message contains none of the
non-retryable keywords, and it contains at least one retryable keyword.
The trailing conjuncts record the two special cases named by the claim:
a message holding both a non-retryable and a retryable keyword is not
retryable, and a message matching neither list is not retryable. -/
theorem defaultIsRetryable_iff :
    (∀ err : Option GoErr, DefaultIsRetryable err = true ↔
      ∃ e, err = some e ∧
        (∀ kw ∈ nonRetryableKeywords, hasKeyword (GoErr.Error e) kw = false) ∧
        (∃ kw ∈ retryableKeywords, hasKeyword (GoErr.Error e) kw = true)) ∧
    DefaultIsRetryable (some (GoErr.msg "timeout: not found")) = false ∧
    DefaultIsRetryable (some (GoErr.msg "mysterious failure")) = false := by
  refine ⟨?_, by decide, by decide⟩
  intro err
  cases err with
  | none => simp [DefaultIsRetryable]
  | some e =>
    simp only [DefaultIsRetryable]
    constructor
    · intro h
      split_ifs at h with h1 h2
      refine ⟨e, rfl, ?_, ?_⟩
      · intro kw hkw
        by_contra hne
        have hany : (nonRetryableKeywords.any fun kw => hasKeyword e.Error kw) = true := by
          rw [List.any_eq_true]
          exact ⟨kw, hkw, by simpa using hne⟩
        exact h1 hany
      · simpa [List.any_eq_true] using h2
    · rintro ⟨e2, he2, hnone, hsome⟩
      obtain rfl : e = e2 := by injection he2
      have h1 : nonRetryableKeywords.any (fun kw => hasKeyword e.Error kw) = false := by
        simp only [List.any_eq_false]
        intro kw hkw
        simp [hnone kw hkw]
      have h2 : retryableKeywords.any (fun kw => hasKeyword e.Error kw) = true := by
        simpa [List.any_eq_true] using hsome
      simp [h1, h2]

/-! ### C8: exponential backoff, cap, and total sleep bound -/

/-- With a multiplier of at least one and a start value at most the
cap, the capped-multiply loop computes exactly the capped geometric
value. -/
theorem backoffAux_eq_min (m maxB : Rat) (hm : 1 ≤ m) :
    ∀ (n : Nat) (b : Rat), b ≤ maxB →
      backoffAux m maxB n b = min (b * m ^ n) maxB := by
  intro n
  induction n with
  | zero =>
    intro b hb
    simp [backoffAux, min_eq_left hb]
  | succ n ih =>
    intro b hb
    simp only [backoffAux]
    by_cases hcap : maxB < b * m
    · rw [if_pos hcap]
      have hb0 : 0 ≤ b := by nlinarith
      have hpow : 1 ≤ m ^ n := one_le_pow₀ hm
      have hbig : maxB ≤ b * m ^ (n + 1) := by
        calc maxB ≤ b * m := hcap.le
          _ ≤ (b * m) * m ^ n :=
              le_mul_of_one_le_right (mul_nonneg hb0 (by linarith)) hpow
          _ = b * m ^ (n + 1) := by ring
      rw [min_eq_right hbig]
    · rw [if_neg hcap]
      rw [ih (b * m) (not_lt.1 hcap)]
      congr 1
      ring

/-- `calculateBackoff` is the geometric delay capped at `MaxBackoff`
whenever the initial delay does not already exceed the cap. -/
theorem calculateBackoff_eq_min (cfg : RetryConfig) (i : Nat)
    (hm : 1 ≤ cfg.BackoffMultiplier) (hinit : cfg.InitialBackoff ≤ cfg.MaxBackoff) :
    calculateBackoff i cfg
      = min (cfg.InitialBackoff * cfg.BackoffMultiplier ^ i) cfg.MaxBackoff :=
  backoffAux_eq_min _ _ hm i _ hinit

/-- Common shape of every early exit of the retry loop: the
accumulated sleeps are reversed and returned. -/
theorem revExitBound (sleeps : List Rat) (cap : Rat) (r : Nat)
    (hall : ∀ x ∈ sleeps, x ≤ cap) :
    (∀ x ∈ sleeps.reverse, x ≤ cap) ∧ sleeps.reverse.length ≤ sleeps.length + r := by
  refine ⟨fun x hx => hall x (List.mem_reverse.1 hx), ?_⟩
  simp

/-- Every sleep the retry loop performs is at most `MaxBackoff`, and
there are at most `remaining` of them beyond those already recorded. -/
theorem RetryLoop_sleeps_bound (fn : Nat → Option GoErr) (cfg : RetryConfig) (ctx : Nat → Bool)
    (hm : 1 ≤ cfg.BackoffMultiplier) (hinit : cfg.InitialBackoff ≤ cfg.MaxBackoff) :
    ∀ (remaining attempt obs : Nat) (sleeps : List Rat),
      (∀ x ∈ sleeps, x ≤ cfg.MaxBackoff) →
      (∀ x ∈ (RetryLoop fn cfg ctx remaining attempt obs sleeps).sleeps,
        x ≤ cfg.MaxBackoff) ∧
      (RetryLoop fn cfg ctx remaining attempt obs sleeps).sleeps.length
        ≤ sleeps.length + remaining := by
  intro remaining
  induction remaining with
  | zero =>
    intro attempt obs sleeps hall
    cases hfn : fn attempt with
    | none =>
      rw [RetryLoop_eq_success fn cfg ctx 0 attempt obs sleeps hfn]
      exact revExitBound sleeps cfg.MaxBackoff 0 hall
    | some e =>
      cases hr : cfg.IsRetryable (some e) with
      | false =>
        rw [RetryLoop_eq_nonretry fn cfg ctx 0 attempt obs sleeps e hfn hr]
        exact revExitBound sleeps cfg.MaxBackoff 0 hall
      | true =>
        rw [RetryLoop_eq_exhaust fn cfg ctx attempt obs sleeps e hfn hr]
        exact revExitBound sleeps cfg.MaxBackoff 0 hall
  | succ r ih =>
    intro attempt obs sleeps hall
    cases hfn : fn attempt with
    | none =>
      rw [RetryLoop_eq_success fn cfg ctx (r + 1) attempt obs sleeps hfn]
      exact revExitBound sleeps cfg.MaxBackoff (r + 1) hall
    | some e =>
      cases hr : cfg.IsRetryable (some e) with
      | false =>
        rw [RetryLoop_eq_nonretry fn cfg ctx (r + 1) attempt obs sleeps e hfn hr]
        exact revExitBound sleeps cfg.MaxBackoff (r + 1) hall
      | true =>
        cases h1 : ctx obs with
        | true =>
          rw [RetryLoop_eq_cancel fn cfg ctx r attempt obs sleeps e hfn hr h1]
          exact revExitBound sleeps cfg.MaxBackoff (r + 1) hall
        | false =>
          cases h2 : ctx (obs + 1) with
          | true =>
            rw [RetryLoop_eq_cancelBackoff fn cfg ctx r attempt obs sleeps e hfn hr h1 h2]
            exact revExitBound sleeps cfg.MaxBackoff (r + 1) hall
          | false =>
            rw [RetryLoop_eq_continue fn cfg ctx r attempt obs sleeps e hfn hr h1 h2]
            have hback : calculateBackoff attempt cfg ≤ cfg.MaxBackoff := by
              rw [calculateBackoff_eq_min cfg attempt hm hinit]
              exact min_le_right _ _
            have hrec := ih (attempt + 1) (obs + 2) (calculateBackoff attempt cfg :: sleeps)
              (by
                intro x hx
                rcases List.mem_cons.1 hx with h | h
                · exact h ▸ hback
                · exact hall x h)
            refine ⟨hrec.1, ?_⟩
            have := hrec.2
            simp only [List.length_cons] at this
            omega

/-- C8 counterexample.  First input: a policy with `multiplier = 2 ≥ 1`
but `initialDelay = 10 > maxDelay = 5`; `calculateBackoff` for attempt
0 returns the initial delay without applying the cap, exceeding
`maxDelay`.  Second input: a policy with negative delays
(`initialDelay = -4 ≤ maxDelay = -2`) and an immediately succeeding
operation; the total slept is 0, which exceeds
`maxDelay * (maxAttempts - 1) = -2`. -/
theorem backoff_cap_counterexample :
    calculateBackoff 0
      { MaxAttempts := 3, InitialBackoff := 10, MaxBackoff := 5,
        BackoffMultiplier := 2, IsRetryable := fun _ => true } = 10 ∧
    ¬(calculateBackoff 0
      { MaxAttempts := 3, InitialBackoff := 10, MaxBackoff := 5,
        BackoffMultiplier := 2, IsRetryable := fun _ => true } ≤ (5 : Rat)) ∧
    (Retry (fun _ => none)
      { MaxAttempts := 2, InitialBackoff := -4, MaxBackoff := -2,
        BackoffMultiplier := 1, IsRetryable := fun _ => true } ctxNever).sleeps.sum = 0 ∧
    ¬((Retry (fun _ => none)
      { MaxAttempts := 2, InitialBackoff := -4, MaxBackoff := -2,
        BackoffMultiplier := 1, IsRetryable := fun _ => true } ctxNever).sleeps.sum
        ≤ (-2 : Rat) * (((2 : Int) : Rat) - 1)) := by
  refine ⟨rfl, by norm_num [calculateBackoff, backoffAux], ?_, ?_⟩
  · rfl
  · have hs : (Retry (fun _ => none)
      { MaxAttempts := 2, InitialBackoff := -4, MaxBackoff := -2,
        BackoffMultiplier := 1, IsRetryable := fun _ => true } ctxNever).sleeps.sum
        = (0 : Rat) := rfl
    rw [hs]
    norm_num

/-- C8 (amended with `0 ≤ initialDelay ≤ maxDelay`, as the
counterexample forces): for every retry policy with `multiplier ≥ 1`
and `0 ≤ initialDelay ≤ maxDelay`, the backoff delay computed for
attempt `i` is the geometric value `initialDelay * multiplier^i`
capped at `maxDelay`, hence never exceeds `maxDelay`; consequently the
total time slept across one full `Retry` run is at most
`maxDelay * (maxAttempts - 1)`. -/
theorem backoff_capped_and_total (cfg : RetryConfig) (i : Nat) (fn : Nat → Option GoErr)
    (ctx : Nat → Bool) (hm : 1 ≤ cfg.BackoffMultiplier) (h0 : 0 ≤ cfg.InitialBackoff)
    (hinit : cfg.InitialBackoff ≤ cfg.MaxBackoff) (hM : 1 ≤ cfg.MaxAttempts) :
    calculateBackoff i cfg
      = min (cfg.InitialBackoff * cfg.BackoffMultiplier ^ i) cfg.MaxBackoff ∧
    calculateBackoff i cfg ≤ cfg.MaxBackoff ∧
    (Retry fn cfg ctx).sleeps.sum ≤ cfg.MaxBackoff * ((cfg.MaxAttempts : Rat) - 1) := by
  refine ⟨calculateBackoff_eq_min cfg i hm hinit, ?_, ?_⟩
  · rw [calculateBackoff_eq_min cfg i hm hinit]
    exact min_le_right _ _
  · obtain ⟨hbound, hlen⟩ := RetryLoop_sleeps_bound fn cfg ctx hm hinit
      (cfg.MaxAttempts - 1).toNat 0 0 [] (by simp)
    have hmaxB0 : 0 ≤ cfg.MaxBackoff := le_trans h0 hinit
    have hsum : (Retry fn cfg ctx).sleeps.sum
        ≤ (Retry fn cfg ctx).sleeps.length • cfg.MaxBackoff :=
      List.sum_le_card_nsmul _ _ hbound
    rw [nsmul_eq_mul] at hsum
    have hcast : (((cfg.MaxAttempts - 1).toNat : Nat) : Rat) = (cfg.MaxAttempts : Rat) - 1 := by
      have h1 : (((cfg.MaxAttempts - 1).toNat : Nat) : Int) = cfg.MaxAttempts - 1 :=
        Int.toNat_of_nonneg (by omega)
      have h2 : (((cfg.MaxAttempts - 1).toNat : Nat) : Rat)
          = ((((cfg.MaxAttempts - 1).toNat : Nat) : Int) : Rat) := by push_cast; ring
      rw [h2, h1]
      push_cast
      ring
    have hlen2 : ((Retry fn cfg ctx).sleeps.length : Rat) ≤ (cfg.MaxAttempts : Rat) - 1 := by
      have hL : (Retry fn cfg ctx).sleeps.length ≤ (cfg.MaxAttempts - 1).toNat := by
        simpa [Retry] using hlen
      calc ((Retry fn cfg ctx).sleeps.length : Rat)
          ≤ (((cfg.MaxAttempts - 1).toNat : Nat) : Rat) := by exact_mod_cast hL
        _ = (cfg.MaxAttempts : Rat) - 1 := hcast
    calc (Retry fn cfg ctx).sleeps.sum
        ≤ ((Retry fn cfg ctx).sleeps.length : Rat) * cfg.MaxBackoff := hsum
      _ ≤ ((cfg.MaxAttempts : Rat) - 1) * cfg.MaxBackoff :=
          mul_le_mul_of_nonneg_right hlen2 hmaxB0
      _ = cfg.MaxBackoff * ((cfg.MaxAttempts : Rat) - 1) := mul_comm _ _

/-- Witness for the amended C8: a policy with delays 1 (initial) and 4
(cap), multiplier 2, three attempts, and an always-failing retryable
operation. -/
theorem backoff_capped_and_total_witness :
    calculateBackoff 3
      { MaxAttempts := 3, InitialBackoff := 1, MaxBackoff := 4,
        BackoffMultiplier := 2, IsRetryable := fun _ => true }
      = min ((1 : Rat) * 2 ^ 3) 4 ∧
    calculateBackoff 3
      { MaxAttempts := 3, InitialBackoff := 1, MaxBackoff := 4,
        BackoffMultiplier := 2, IsRetryable := fun _ => true } ≤ (4 : Rat) ∧
    (Retry (fun _ => some (GoErr.msg "timeout"))
      { MaxAttempts := 3, InitialBackoff := 1, MaxBackoff := 4,
        BackoffMultiplier := 2, IsRetryable := fun _ => true } ctxNever).sleeps.sum
      ≤ (4 : Rat) * (((3 : Int) : Rat) - 1) :=
  backoff_capped_and_total
    { MaxAttempts := 3, InitialBackoff := 1, MaxBackoff := 4,
      BackoffMultiplier := 2, IsRetryable := fun _ => true }
    3 (fun _ => some (GoErr.msg "timeout")) ctxNever
    (by norm_num) (by norm_num) (by norm_num) (by norm_num)

/-! ### C9: content truncation during fetch-content enrichment -/

/-- SearchResult from internal/models/types.go.  Go strings are byte
sequences; `Content` is kept as a byte list because the truncation in
the source slices bytes (`content[:2000]`). -/
structure SearchResult where
  Title : String
  Link : String
  Snippet : String
  Content : List Nat
deriving DecidableEq, Repr

/-- The three bytes of the `"..."` marker appended by truncation. -/
def truncateMarker : List Nat := [46, 46, 46]

/-- The per-result body of the fetch-content loop (internal/logic,
`Search` and `fetchContentForResults`): `if len(content) > 2000
\x7b content = content[:2000] + "..." \x7d; results[i].Content = content`. -/
def applyFetched (r : SearchResult) (content : List Nat) : SearchResult :=
  if 2000 < content.length then { r with Content := content.take 2000 ++ truncateMarker }
  else { r with Content := content }

/-- The fetch-content loop over the result list.  `fetch i` is the
outcome of navigating to result `i` and reading `document.body.innerText`
(`none` = the ChromeDP run failed); on failure the loop logs a warning
and leaves the result untouched. -/
def fetchContentLoop (fetch : Nat → Option (List Nat)) : Nat → List SearchResult → List SearchResult
  | _, [] => []
  | i, r :: rest =>
    (match fetch i with
     | none => r
     | some content => applyFetched r content) :: fetchContentLoop fetch (i + 1) rest

/-- The fetch-content loop rewrites each position independently. -/
theorem fetchContentLoop_getElem (fetch : Nat → Option (List Nat)) :
    ∀ (rs : List SearchResult) (start j : Nat),
      (fetchContentLoop fetch start rs)[j]? =
        (rs[j]?).map (fun r =>
          match fetch (start + j) with
          | none => r
          | some content => applyFetched r content) := by
  intro rs
  induction rs with
  | nil => intro start j; simp [fetchContentLoop]
  | cons r rest ih =>
    intro start j
    cases j with
    | zero => simp [fetchContentLoop]
    | succ j =>
      simp only [fetchContentLoop, List.getElem?_cons_succ]
      rw [ih (start + 1) j, show start + 1 + j = start + (j + 1) from by omega]

/-- C9: for every fetched page content, if its length exceeds the cap
of 2000 the stored content is the first 2000 bytes followed by the
"..." marker; at or below the cap it is stored unchanged.  The other
fields of the record are untouched either way. -/
theorem content_truncation (fetch : Nat → Option (List Nat)) (rs : List SearchResult)
    (i : Nat) (c : List Nat) (hc : fetch i = some c) (hi : i < rs.length) :
    ∃ r0, rs[i]? = some r0 ∧
      (2000 < c.length →
        (fetchContentLoop fetch 0 rs)[i]? =
          some { r0 with Content := c.take 2000 ++ truncateMarker }) ∧
      (c.length ≤ 2000 →
        (fetchContentLoop fetch 0 rs)[i]? = some { r0 with Content := c }) := by
  obtain ⟨r0, hr0⟩ : ∃ r0, rs[i]? = some r0 := by
    rw [List.getElem?_eq_getElem hi]
    exact ⟨_, rfl⟩
  refine ⟨r0, hr0, ?_, ?_⟩
  · intro hlong
    rw [fetchContentLoop_getElem fetch rs 0 i, hr0]
    simp [applyFetched, hc, hlong]
  · intro hshort
    rw [fetchContentLoop_getElem fetch rs 0 i, hr0]
    have hnot : ¬ (2000 < c.length) := by omega
    simp [applyFetched, hc, hnot]

/-- Witness for C9: one result and a fetched body of 2001 bytes, which
gets truncated to its first 2000 bytes plus the marker. -/
theorem content_truncation_witness :
    ∃ r0, [(⟨"t", "l", "s", []⟩ : SearchResult)][0]? = some r0 ∧
      (2000 < (List.replicate 2001 65).length →
        (fetchContentLoop (fun _ => some (List.replicate 2001 65)) 0
          [(⟨"t", "l", "s", []⟩ : SearchResult)])[0]? =
          some { r0 with Content := (List.replicate 2001 65).take 2000 ++ truncateMarker }) ∧
      ((List.replicate 2001 65).length ≤ 2000 →
        (fetchContentLoop (fun _ => some (List.replicate 2001 65)) 0
          [(⟨"t", "l", "s", []⟩ : SearchResult)])[0]? =
          some { r0 with Content := List.replicate 2001 65 }) :=
  content_truncation (fun _ => some (List.replicate 2001 65))
    [⟨"t", "l", "s", []⟩] 0 (List.replicate 2001 65) rfl (by simp)

/-! ### C6: ordered selector fallback (enhanced scraping path) -/

/-- One selector strategy of `extractSearchResults`: an item selector,
a title selector and a snippet selector. -/
abbrev SelStrategy := String × String × String

/-- GoogleSearchSelectors from internal/utils/selectors.go (the
candidate lists the nested fallback loops range over). -/
structure GoogleSearchSelectors where
  SearchContainer : List String
  ResultItem : List String
  Title : List String
  URL : List String
  Snippet : List String
  FallbackWait : List String

/-- The strategy order of the three nested loops of
`extractSearchResults`: all title and snippet candidates are tried for
the first item candidate before the next item candidate is reached. -/
def strategyTriples (sel : GoogleSearchSelectors) : List SelStrategy :=
  sel.ResultItem.flatMap fun itemSel =>
    sel.Title.flatMap fun titleSel =>
      sel.Snippet.map fun snippetSel => (itemSel, titleSel, snippetSel)

/-- The fallback loop of `extractSearchResults` (enhanced scraping
path), instrumented with the list of strategies it attempted, in
order.  `tryS` abstracts `tryExtractOneStrategy` against the live
page: `none` models an error return.  The loop returns the first
strategy whose attempt yields no error and a non-empty result list
(`err == nil && len(results) > 0`); if every strategy fails it returns
the "all selector strategies failed" error, modelled as `none`. -/
def extractSearchResults (tryS : SelStrategy → Option (List SearchResult)) :
    List SelStrategy → Option (List SearchResult) × List SelStrategy
  | [] => (none, [])
  | strat :: rest =>
    match tryS strat with
    | some results =>
      if 0 < results.length then (some results, [strat])
      else
        let r := extractSearchResults tryS rest
        (r.1, strat :: r.2)
    | none =>
      let r := extractSearchResults tryS rest
      (r.1, strat :: r.2)

/-- Whether an attempt of one strategy counts as a success for the
fallback loop. -/
def stratSucceeds (tryS : SelStrategy → Option (List SearchResult)) (s : SelStrategy) : Bool :=
  match tryS s with
  | some results => decide (0 < results.length)
  | none => false

/-- C6: resolution tries the candidate strategies strictly in order and
stops at the first one yielding a non-empty result: with every strategy
before `b` failing and `b` succeeding with `results`, the loop returns
`results`, the attempted strategies are exactly the failing ones
followed by `b` (nothing after `b` is attempted), and the empty
candidate set yields the error outcome, never a result. -/
theorem selector_first_success (tryS : SelStrategy → Option (List SearchResult))
    (pre : List SelStrategy) (b : SelStrategy) (post : List SelStrategy)
    (results : List SearchResult)
    (hpre : ∀ s ∈ pre, stratSucceeds tryS s = false)
    (hb : tryS b = some results) (hres : 0 < results.length) :
    (extractSearchResults tryS (pre ++ b :: post)).1 = some results ∧
    (extractSearchResults tryS (pre ++ b :: post)).2 = pre ++ [b] ∧
    extractSearchResults tryS [] = (none, []) := by
  refine ⟨?_, ?_, rfl⟩ <;>
  · induction pre with
    | nil =>
      simp only [List.nil_append, extractSearchResults, hb, if_pos hres]
    | cons s rest ih =>
      have hs := hpre s (List.mem_cons_self s rest)
      have hrest : ∀ t ∈ rest, stratSucceeds tryS t = false :=
        fun t ht => hpre t (List.mem_cons_of_mem s ht)
      simp only [List.cons_append, extractSearchResults]
      cases hts : tryS s with
      | none =>
        simp only [List.append_eq]
        rw [ih hrest]
      | some res2 =>
        rw [stratSucceeds, hts] at hs
        have hempty : ¬ (0 < res2.length) := by simpa using hs
        simp only [if_neg hempty, List.append_eq]
        rw [ih hrest]

/-- Witness for C6: three strategies A, B, C where only B matches; the
result is that of B and only A and B are attempted. -/
theorem selector_first_success_witness :
    (extractSearchResults
      (fun s => if s.1 = "B" then some [⟨"t", "l", "sn", []⟩] else none)
      ([("A", "x", "y")] ++ ("B", "x", "y") :: [("C", "x", "y")])).1 =
        some [⟨"t", "l", "sn", []⟩] ∧
    (extractSearchResults
      (fun s => if s.1 = "B" then some [⟨"t", "l", "sn", []⟩] else none)
      ([("A", "x", "y")] ++ ("B", "x", "y") :: [("C", "x", "y")])).2 =
        [("A", "x", "y")] ++ [("B", "x", "y")] ∧
    extractSearchResults
      (fun s => if s.1 = "B" then some [⟨"t", "l", "sn", []⟩] else none) [] = (none, []) :=
  selector_first_success
    (fun s => if s.1 = "B" then some [⟨"t", "l", "sn", []⟩] else none)
    [("A", "x", "y")] ("B", "x", "y") [("C", "x", "y")]
    [⟨"t", "l", "sn", []⟩] (by decide) (by decide) (by decide)

/-! ### C7: no record mixes fields of two resolved strategies -/

/-- Which resolved strategy a field value came from: the primary
selector set of `Search` (internal/logic/scraping.go) or the
title-fallback selector used when the primary extraction run errors. -/
inductive Strat where
  | primary
  | fallback
deriving DecidableEq, Repr

/-- A field value tagged with the strategy that produced it. -/
structure TVal where
  val : String
  strat : Strat
deriving DecidableEq, Repr

/-- A search record as built by `Search`, with provenance tags. -/
structure TaggedResult where
  Title : TVal
  Link : TVal
  Snippet : TVal
deriving DecidableEq, Repr

/-- The page as seen through the four Evaluate scripts of `Search`:
what each selector set yields, and whether each Evaluate succeeds. -/
structure PageModel where
  primTitles : List String
  primLinks : List String
  primSnippets : List String
  fbTitles : List String
  titleOk : Bool
  linkOk : Bool
  snippetOk : Bool
  fbOk : Bool

/-- Tag every value of a list with its producing strategy. -/
def tagL (s : Strat) (l : List String) : List TVal := l.map (fun v => ⟨v, s⟩)

/-- Result of the first `chromedp.Run` of `Search`, which evaluates
the title, link and snippet scripts in that order and stops at the
first failure, leaving the remaining slices empty (nil). -/
structure PrimaryEval where
  titles : List TVal
  links : List TVal
  snippets : List TVal
  ok : Bool

/-- The fail-fast sequential primary extraction run of `Search`. -/
def runPrimary (p : PageModel) : PrimaryEval :=
  if p.titleOk = false then ⟨[], [], [], false⟩
  else if p.linkOk = false then ⟨tagL .primary p.primTitles, [], [], false⟩
  else if p.snippetOk = false then
    ⟨tagL .primary p.primTitles, tagL .primary p.primLinks, [], false⟩
  else
    ⟨tagL .primary p.primTitles, tagL .primary p.primLinks,
     tagL .primary p.primSnippets, true⟩

/-- The slices `Search` holds after its extraction attempts: the
primary run when it succeeded; on error, the fallback title re-run
replaces only `titles` while `links` and `snippets` keep whatever the
failed run left; if the fallback also errors, `Search` returns the
error (`none`). -/
def searchStep (p : PageModel) : Option (List TVal × List TVal × List TVal) :=
  if (runPrimary p).ok then
    some ((runPrimary p).titles, (runPrimary p).links, (runPrimary p).snippets)
  else if p.fbOk then
    some (tagL .fallback p.fbTitles, (runPrimary p).links, (runPrimary p).snippets)
  else none

/-- The record-building tail of `Search`: `minLen` is the least of the
three slice lengths, further limited by a positive `numResults`, and
record `i` is built from `titles[i]`, `links[i]`, `snippets[i]`.
(`strings.TrimSpace` on title and snippet is omitted: it rewrites the
value, not its provenance.) -/
def buildRecords (titles links snippets : List TVal) (numResults : Int) : List TaggedResult :=
  let minLen0 := min titles.length (min links.length snippets.length)
  let minLen := if 0 < numResults ∧ numResults < (minLen0 : Int)
    then numResults.toNat else minLen0
  ((titles.take minLen).zip ((links.take minLen).zip (snippets.take minLen))).map
    fun x => ⟨x.1, x.2.1, x.2.2⟩

/-- The extraction phase of `Search` (internal/logic/scraping.go). -/
def SearchExtract (p : PageModel) (numResults : Int) : Option (List TaggedResult) :=
  match searchStep p with
  | none => none
  | some (titles, links, snippets) => some (buildRecords titles links snippets numResults)

/-- Every element of a tagged list carries that tag. -/
theorem tagL_strat (s : Strat) (l : List String) (x : TVal) (hx : x ∈ tagL s l) :
    x.strat = s := by
  simp only [tagL, List.mem_map] at hx
  obtain ⟨v, _, rfl⟩ := hx
  rfl

/-- When the primary run succeeds, all three slices are tagged
primary. -/
theorem runPrimary_ok_tags (p : PageModel) (h : (runPrimary p).ok = true) :
    (∀ x ∈ (runPrimary p).titles, x.strat = Strat.primary) ∧
    (∀ x ∈ (runPrimary p).links, x.strat = Strat.primary) ∧
    (∀ x ∈ (runPrimary p).snippets, x.strat = Strat.primary) := by
  rw [runPrimary] at h ⊢
  split_ifs at h ⊢
  exact ⟨fun x hx => tagL_strat _ _ x hx, fun x hx => tagL_strat _ _ x hx,
    fun x hx => tagL_strat _ _ x hx⟩

/-- When the primary run fails, it left the link slice or the snippet
slice empty (the failed Evaluate and everything after it never wrote
their slices). -/
theorem runPrimary_not_ok (p : PageModel) (h : (runPrimary p).ok = false) :
    (runPrimary p).links = [] ∨ (runPrimary p).snippets = [] := by
  rw [runPrimary] at h ⊢
  split_ifs at h ⊢ <;> simp_all

/-- Zipping an empty link or snippet slice produces no records. -/
theorem buildRecords_empty (titles links snippets : List TVal) (n : Int)
    (h : links = [] ∨ snippets = []) :
    buildRecords titles links snippets n = [] := by
  rcases h with rfl | rfl <;> simp [buildRecords]

/-- Records built from three slices of one common strategy never mix
tags. -/
theorem buildRecords_same_strat (titles links snippets : List TVal) (n : Int) (s : Strat)
    (ht : ∀ x ∈ titles, x.strat = s) (hl : ∀ x ∈ links, x.strat = s)
    (hs : ∀ x ∈ snippets, x.strat = s)
    (r : TaggedResult) (hr : r ∈ buildRecords titles links snippets n) :
    r.Title.strat = r.Link.strat ∧ r.Link.strat = r.Snippet.strat := by
  simp only [buildRecords, List.mem_map] at hr
  obtain ⟨⟨t, l2, s2⟩, hmem, rfl⟩ := hr
  have h1 := List.of_mem_zip hmem
  have h2 := List.of_mem_zip h1.2
  have et : t.strat = s := ht t (List.take_subset _ _ h1.1)
  have el : l2.strat = s := hl l2 (List.take_subset _ _ h2.1)
  have es : s2.strat = s := hs s2 (List.take_subset _ _ h2.2)
  exact ⟨by rw [et, el], by rw [el, es]⟩

/-- The slices `Search` zips are either all primary-tagged, or a link
or snippet slice is empty. -/
theorem searchStep_cases (p : PageModel) (titles links snippets : List TVal)
    (h : searchStep p = some (titles, links, snippets)) :
    ((∀ x ∈ titles, x.strat = Strat.primary) ∧
     (∀ x ∈ links, x.strat = Strat.primary) ∧
     (∀ x ∈ snippets, x.strat = Strat.primary)) ∨
    (links = [] ∨ snippets = []) := by
  rw [searchStep] at h
  by_cases hok : (runPrimary p).ok = true
  · rw [if_pos hok] at h
    simp only [Option.some.injEq, Prod.mk.injEq] at h
    obtain ⟨h1, h2, h3⟩ := h
    left
    rw [← h1, ← h2, ← h3]
    exact runPrimary_ok_tags p hok
  · rw [if_neg hok] at h
    by_cases hfb : p.fbOk = true
    · rw [if_pos hfb] at h
      simp only [Option.some.injEq, Prod.mk.injEq] at h
      obtain ⟨_, h2, h3⟩ := h
      right
      rcases runPrimary_not_ok p (by simpa using hok) with hl | hs
      · left; rw [← h2, hl]
      · right; rw [← h3, hs]
    · rw [if_neg hfb] at h
      exact absurd h (by simp)

/-- C7: every record produced by `Search` has its title, link and
snippet from one single resolved strategy (the title-fallback path can
never pair a fallback title with primary links or snippets, because
the failed primary run leaves a link or snippet slice empty and hence
yields no records at all).  The second conjunct covers the enhanced
path: the whole record list returned by `extractSearchResults` comes
from one single strategy triple of the candidate list. -/
theorem no_mixed_strategy_fields (p : PageModel) (numResults : Int)
    (records : List TaggedResult) (h : SearchExtract p numResults = some records) :
    (∀ r ∈ records, r.Title.strat = r.Link.strat ∧ r.Link.strat = r.Snippet.strat) ∧
    (∀ (tryS : SelStrategy → Option (List SearchResult)) (L : List SelStrategy)
      (rs : List SearchResult),
      (extractSearchResults tryS L).1 = some rs →
      ∃ s ∈ L, tryS s = some rs) := by
  constructor
  · intro r hr
    rw [SearchExtract] at h
    cases hstep : searchStep p with
    | none => rw [hstep] at h; exact absurd h (by simp)
    | some triple =>
      obtain ⟨titles, links, snippets⟩ := triple
      rw [hstep] at h
      obtain rfl : buildRecords titles links snippets numResults = records := by
        simpa using h
      rcases searchStep_cases p titles links snippets hstep with ⟨ht, hl, hsn⟩ | hempty
      · exact buildRecords_same_strat titles links snippets numResults Strat.primary
          ht hl hsn r hr
      · rw [buildRecords_empty titles links snippets numResults hempty] at hr
        exact absurd hr (by simp)
  · intro tryS L
    induction L with
    | nil => intro rs hrs; simp [extractSearchResults] at hrs
    | cons strat rest ih =>
      intro rs hrs
      rw [extractSearchResults] at hrs
      cases hts : tryS strat with
      | some res2 =>
        simp only [hts] at hrs
        by_cases hpos : 0 < res2.length
        · rw [if_pos hpos] at hrs
          obtain rfl : res2 = rs := by simpa using hrs
          exact ⟨strat, List.mem_cons_self _ _, hts⟩
        · rw [if_neg hpos] at hrs
          obtain ⟨s, hsmem, hsz⟩ := ih rs (by simpa using hrs)
          exact ⟨s, List.mem_cons_of_mem _ hsmem, hsz⟩
      | none =>
        simp only [hts] at hrs
        obtain ⟨s, hsmem, hsz⟩ := ih rs hrs
        exact ⟨s, List.mem_cons_of_mem _ hsmem, hsz⟩

/-- Witness for C7: a page on which all primary evaluations succeed
with one result each; the single record is built and its three fields
all carry the primary tag. -/
theorem no_mixed_strategy_fields_witness :
    (∀ r ∈ [(⟨⟨"T1", Strat.primary⟩, ⟨"L1", Strat.primary⟩,
        ⟨"S1", Strat.primary⟩⟩ : TaggedResult)],
      r.Title.strat = r.Link.strat ∧ r.Link.strat = r.Snippet.strat) ∧
    (∀ (tryS : SelStrategy → Option (List SearchResult)) (L : List SelStrategy)
      (rs : List SearchResult),
      (extractSearchResults tryS L).1 = some rs →
      ∃ s ∈ L, tryS s = some rs) :=
  no_mixed_strategy_fields
    ⟨["T1"], ["L1"], ["S1"], [], true, true, true, true⟩ 0
    [⟨⟨"T1", Strat.primary⟩, ⟨"L1", Strat.primary⟩, ⟨"S1", Strat.primary⟩⟩]
    (by decide)

/-! ### C4: session lifecycle (Start / Close) -/

/-- WsInfo from internal/config: the durable session record. -/
structure WsInfo where
  Url : String
  Pid : Int
deriving DecidableEq, Repr

/-- The durable store: `some info` when `LoadWsInfo` succeeds (a
readable record file exists), `none` when it fails (no record, or an
unreadable one). -/
abbrev SessionStore := Option WsInfo

/-- The environment `Start` interacts with: whether a Chrome executable
is found on the search path, whether the OS spawn succeeds, whether the
readiness wait succeeds, whether saving the record succeeds, and the
spawned process id. -/
structure StartEnv where
  chromeFound : Bool
  spawnOk : Bool
  wsReady : Bool
  saveOk : Bool
  pid : Int

/-- `Start` from internal/browser/lifecycle_unix.go: refuse if a
record loads ("already running"), then locate Chrome, spawn it, wait
for the websocket, save the record.  Returns the error (or `none`) and
the store afterwards. -/
def StartModel (st : SessionStore) (env : StartEnv) (port : Int) :
    Option GoErr × SessionStore :=
  match st with
  | some _ =>
    (some (GoErr.msg "browser is already running. Use \x27close\x27 to stop it first"), st)
  | none =>
    if env.chromeFound = false then
      (some (GoErr.msg "could not find Chrome installation"), st)
    else if env.spawnOk = false then
      (some (GoErr.wrapped "failed to start Chrome" (GoErr.msg "spawn error")), st)
    else if env.wsReady = false then
      (some (GoErr.wrapped "error waiting for browser"
        (GoErr.msg "browser websocket not ready")), st)
    else if env.saveOk = false then
      (some (GoErr.wrapped "failed to save session info" (GoErr.msg "write error")), st)
    else
      (none, some ⟨"ws://127.0.0.1:" ++ toString port, env.pid⟩)

/-- The environment `Close` interacts with: whether `os.FindProcess`
succeeds, whether the SIGTERM delivery succeeds, and whether removing
the record file succeeds.  Find/signal failures are logged warnings
only and do not stop the cleanup. -/
structure CloseEnv where
  findOk : Bool
  signalOk : Bool
  removeOk : Bool

/-- `Close` from internal/browser/lifecycle_unix.go: when no record
loads it returns the "browser is not running" error; otherwise it
signals the process (failures only logged) and removes the record,
failing only if the removal fails. -/
def CloseModel (st : SessionStore) (env : CloseEnv) : Option GoErr × SessionStore :=
  match st with
  | none => (some (GoErr.msg "browser is not running"), none)
  | some info =>
    if env.removeOk = false then
      (some (GoErr.wrapped "failed to remove session file" (GoErr.msg "remove error")), some info)
    else
      (none, none)

/-- C4 counterexample: with no session record on durable storage
(`NotStarted`), `Close` does not return success; it returns the
"browser is not running" error, contradicting the claim that `close`
is a no-op success in that state. -/
theorem close_notStarted_counterexample :
    ¬((CloseModel none ⟨true, true, true⟩).1 = none) ∧
    (CloseModel none ⟨true, true, true⟩).1 = some (GoErr.msg "browser is not running") := by
  exact ⟨by simp [CloseModel], rfl⟩

/-- C4 (amended): when no session record exists, `Close` returns the
"browser is not running" error (not success) and leaves the store
empty; a second `Start` while a record exists fails with the
"already running" error and leaves the record in place. -/
theorem close_and_second_start (env : CloseEnv) (info : WsInfo) (senv : StartEnv)
    (port : Int) :
    (CloseModel none env).1 = some (GoErr.msg "browser is not running") ∧
    (StartModel (some info) senv port).1 =
      some (GoErr.msg "browser is already running. Use \x27close\x27 to stop it first") ∧
    (StartModel (some info) senv port).2 = some info := by
  exact ⟨rfl, rfl, rfl⟩

/-! ### C5: the readiness waiter and cancellation -/

/-- The environment of one `WaitForWS` run: whether the caller context
is already cancelled, whether a TCP dial at elapsed time `t`
(milliseconds) would succeed, and how long a failed dial attempt takes
(the dialer caps each attempt at 1000 ms; a dial under a cancelled
context returns immediately, cost 0). -/
structure DialEnv where
  ctxCanceled : Bool
  reachable : Nat → Bool
  dialCost : Nat → Nat

/-- One `dialer.DialContext` attempt: with a cancelled context it fails
immediately with `ctx.Err()`; otherwise it succeeds when the endpoint
is reachable. -/
def dialOnce (env : DialEnv) (now : Nat) : Bool :=
  !env.ctxCanceled && env.reachable now

/-- Success or the timeout error of `WaitForWS`
(internal/browser/wait.go), with the number of dial attempts made.
The Go function has exactly these two outcomes: a nil return after a
successful dial, or the "browser websocket not ready after maxWait"
error once the deadline has passed.  No cancellation outcome exists. -/
inductive WaitResult where
  | ready (dials : Nat)
  | timeoutErr (dials : Nat)
deriving DecidableEq, Repr

/-- The polling loop of `WaitForWS`: `for time.Now().Before(deadline)
\x7b dial; if ok return nil; sleep 100ms \x7d; return timeout error`.
Time is in elapsed milliseconds from entry; a failed iteration
advances it by the dial cost plus the 100 ms sleep.  `fuel` only makes
the recursion structural: every failed iteration advances `now` by at
least 100 ≥ 1, so with the fuel `WaitForWS` supplies the fuel-0 branch
(which returns the same timeout outcome as the deadline check) is
never reached. -/
def WaitForWSLoop (env : DialEnv) (maxWait : Nat) : Nat → Nat → Nat → WaitResult
  | 0, _, dials => WaitResult.timeoutErr dials
  | fuel + 1, now, dials =>
    if now < maxWait then
      if dialOnce env now then WaitResult.ready (dials + 1)
      else WaitForWSLoop env maxWait fuel (now + env.dialCost now + 100) (dials + 1)
    else WaitResult.timeoutErr dials

/-- `WaitForWS` from internal/browser/wait.go. -/
def WaitForWS (env : DialEnv) (maxWait : Nat) : WaitResult :=
  WaitForWSLoop env maxWait (maxWait + 1) 0 0

/-- C5: the code does not abort on cancellation.  With the caller
context already cancelled and the endpoint never reachable
(`maxWait = 5000` ms), every dial fails instantly, yet the loop keeps
polling through all 50 iterations of the full deadline window and then
returns the timeout error - there is no cancellation outcome at all in
`WaitForWS`.  The claim that the call aborts promptly with a
cancellation outcome is refuted by the code. -/
theorem waitForWS_polls_through_cancellation :
    WaitForWS ⟨true, fun _ => false, fun _ => 0⟩ 5000 = WaitResult.timeoutErr 50 ∧
    WaitForWS ⟨true, fun _ => true, fun _ => 0⟩ 5000 = WaitResult.timeoutErr 50 := by
  exact ⟨by decide, by decide⟩
